import Mathlib

/-!
Shallow embedding of the watch-supervisor subprocess (src/subprocess/src/main.rs).

Paths are modelled as their canonical component sequences (`List String`);
`fs::canonicalize` and the OS watch handle are external collaborators, modelled
by an `Env` that decides success or failure of canonicalization, subscribe and
unsubscribe.  The OS watch handle's subscription set is carried explicitly in
the `Supervisor` state.  A `.unwrap()` panic on the command path is modelled as
`Option.none`.  `dunce::simplified` is the identity on already-canonical,
non-verbatim paths, so emitted paths are the classified paths themselves.
-/

namespace Subprocess

/-- A canonical filesystem path, as its sequence of components. -/
abbrev Path := List String

/-- `type WatchId = usize;` -/
abbrev WatchId := Nat

/-- Rust `Path::starts_with(base)`: true iff `base`'s components are a
component-wise prefix of the path's components.  Pure and syntactic. -/
def starts_with : Path → Path → Bool
  | _, [] => true
  | [], _ :: _ => false
  | c :: cs, b :: bs => c == b && starts_with cs bs

/-- `struct Watch { id: WatchId, root: PathBuf }` with `root` canonical. -/
structure Watch where
  id : WatchId
  root : Path
  deriving DecidableEq, Repr

/-- The debounced raw OS event (`notify::DebouncedEvent`). -/
inductive DebouncedEvent where
  | Create (path : Path)
  | Write (path : Path)
  | Remove (path : Path)
  | Rename (oldPath newPath : Path)
  | NoticeWrite (path : Path)
  | NoticeRemove (path : Path)
  | Chmod (path : Path)
  | Rescan
  | Error (description : String) (path : Option Path)
  deriving DecidableEq, Repr

/-- The emitted semantic event (`enum Event`); `Renamed` carries the new path
in `path` and the old path in `oldPath`, as in `Event::renamed`. -/
inductive Event where
  | Modified (watchId : WatchId) (path : Path)
  | Created (watchId : WatchId) (path : Path)
  | Deleted (watchId : WatchId) (path : Path)
  | Renamed (watchId : WatchId) (path : Path) (oldPath : Path)
  deriving DecidableEq, Repr

/-- The watch id carried by an emitted event. -/
def Event.watchId : Event → WatchId
  | .Modified watchId _ => watchId
  | .Created watchId _ => watchId
  | .Deleted watchId _ => watchId
  | .Renamed watchId _ _ => watchId

/-- `Watch::notify`: classify one raw event against one watch; the returned
list is the sequence of `emit_json` calls made for this watch. -/
def Watch.notify (self : Watch) (event : DebouncedEvent) : List Event :=
  match event with
  | .Create path =>
      if starts_with path self.root then [.Created self.id path] else []
  | .Write path =>
      if starts_with path self.root then [.Modified self.id path] else []
  | .Remove path =>
      if starts_with path self.root then [.Deleted self.id path] else []
  | .Rename oldPath newPath =>
      match starts_with oldPath self.root, starts_with newPath self.root with
      | true, true => [.Renamed self.id newPath oldPath]
      | true, false => [.Deleted self.id oldPath]
      | false, true => [.Created self.id newPath]
      | false, false => []
  | .NoticeWrite _ => []
  | .NoticeRemove _ => []
  | .Chmod _ => []
  | .Rescan => []
  | .Error _ _ => []

/-- `enum Request` -/
inductive Request where
  | Watch (id : WatchId) (root : Path)
  | Unwatch (id : WatchId)
  deriving DecidableEq, Repr

/-- `enum Response` -/
inductive Response where
  | Ok (id : WatchId)
  | Error (id : WatchId) (description : String)
  deriving DecidableEq, Repr

/-- `watches.contains_key(&id)` on the registry, modelled as an association
list standing for the `HashMap<WatchId, Watch>`. -/
def containsKey (watches : List (WatchId × Watch)) (id : WatchId) : Bool :=
  watches.any (fun pr => pr.1 == id)

/-- `watches.remove(&id)`: remove and return the entry for `id`, if present. -/
def removeEntry : List (WatchId × Watch) → WatchId → Option (Watch × List (WatchId × Watch))
  | [], _ => none
  | (k, w) :: rest, id =>
      if k == id then some (w, rest)
      else
        match removeEntry rest id with
        | some (w', rest') => some (w', (k, w) :: rest')
        | none => none

/-- External collaborators: `fs::canonicalize` and the OS watch handle's
subscribe/unsubscribe outcomes.  The `String` on failure is the error's
`description()`. -/
structure Env where
  canonicalize : Path → Except String Path
  subscribe : Path → Except String Unit
  unsubscribe : Path → Except String Unit

/-- `RecommendedWatcher.watch(root, Recursive)` on success: the handle's
subscription set gains `root` (idempotently — the handle tracks a set of
watched paths). -/
def watcherWatch (subs : List Path) (root : Path) : List Path :=
  if subs.contains root then subs else subs ++ [root]

/-- `RecommendedWatcher.unwatch(root)` on success: the handle stops tracking
`root`. -/
def watcherUnwatch (subs : List Path) (root : Path) : List Path :=
  subs.erase root

/-- `struct Supervisor`: the OS watch handle (modelled by its subscription
set) plus the watch registry. -/
structure Supervisor where
  watcher : List Path
  watches : List (WatchId × Watch)
  deriving DecidableEq, Repr

/-- `Supervisor::new()` before any command: empty registry, no subscriptions. -/
def Supervisor.new : Supervisor :=
  { watcher := [], watches := [] }

/-- `Supervisor::notify`: dispatch one raw event to every registered watch,
concatenating each watch's emissions in registry iteration order. -/
def Supervisor.notify (watches : List (WatchId × Watch)) (event : DebouncedEvent) : List Event :=
  match watches with
  | [] => []
  | pr :: rest => pr.2.notify event ++ Supervisor.notify rest event

/-- `Supervisor::handle_request`.  Returns the successor state and the emitted
response; `none` models the `.unwrap()` panic when the OS handle rejects an
unsubscribe. -/
def Supervisor.handle_request (env : Env) (self : Supervisor) (request : Request) :
    Option (Supervisor × Response) :=
  match request with
  | .Watch id root =>
      if containsKey self.watches id then
        some (self, .Error id ("Already registered a watch with id " ++ toString id))
      else
        match env.canonicalize root with
        | .ok croot =>
            match env.subscribe croot with
            | .ok _ =>
                some ({ watcher := watcherWatch self.watcher croot,
                        watches := self.watches ++ [(id, { id := id, root := croot })] },
                      .Ok id)
            | .error e => some (self, .Error id e)
        | .error e => some (self, .Error id e)
  | .Unwatch id =>
      match removeEntry self.watches id with
      | some (watch, rest) =>
          match env.unsubscribe watch.root with
          | .ok _ =>
              some ({ watcher := watcherUnwatch self.watcher watch.root, watches := rest },
                    .Ok id)
          | .error _ => none
      | none => some (self, .Error id ("No watch exists with id " ++ toString id))

/-- The spec's `isUnder(root, candidate)`: `candidate` equals `root` or is a
descendant of `root` in the component sequence.  Stated from the spec's words,
to be compared with the source's `starts_with`. -/
def isUnder (root candidate : Path) : Prop :=
  candidate = root ∨ ∃ rest, rest ≠ [] ∧ candidate = root ++ rest

/-- The paths carried by the semantic (non-informational) raw-event variants;
informational variants contribute none. -/
def DebouncedEvent.semanticPaths : DebouncedEvent → List Path
  | .Create path => [path]
  | .Write path => [path]
  | .Remove path => [path]
  | .Rename oldPath newPath => [oldPath, newPath]
  | _ => []

/-- Every path carried by a raw event, informational variants included. -/
def DebouncedEvent.carriedPaths : DebouncedEvent → List Path
  | .Create path => [path]
  | .Write path => [path]
  | .Remove path => [path]
  | .Rename oldPath newPath => [oldPath, newPath]
  | .NoticeWrite path => [path]
  | .NoticeRemove path => [path]
  | .Chmod path => [path]
  | .Rescan => []
  | .Error _ (some path) => [path]
  | .Error _ none => []

/-! ### Helper lemmas -/

/-- `starts_with` is the component-prefix test: it holds exactly when the
base extends to the candidate by some (possibly empty) suffix. -/
theorem starts_with_eq_true_iff (c r : Path) :
    starts_with c r = true ↔ ∃ t, c = r ++ t := by
  induction r generalizing c with
  | nil =>
      simp [starts_with]
  | cons b bs ih =>
      cases c with
      | nil => simp [starts_with]
      | cons a as =>
          simp only [starts_with, Bool.and_eq_true, beq_iff_eq, ih, List.cons_append,
            List.cons.injEq]
          constructor
          · rintro ⟨rfl, t, rfl⟩
            exact ⟨t, rfl, rfl⟩
          · rintro ⟨t, rfl, rfl⟩
            exact ⟨rfl, t, rfl⟩

/-- Every event emitted by `Watch::notify` is tagged with that watch's id. -/
theorem watchId_of_mem_notify (w : Watch) (ev : DebouncedEvent) (e : Event)
    (h : e ∈ w.notify ev) : e.watchId = w.id := by
  cases ev with
  | Create p =>
      by_cases hp : starts_with p w.root = true <;>
        simp_all [Watch.notify, Event.watchId]
  | Write p =>
      by_cases hp : starts_with p w.root = true <;>
        simp_all [Watch.notify, Event.watchId]
  | Remove p =>
      by_cases hp : starts_with p w.root = true <;>
        simp_all [Watch.notify, Event.watchId]
  | Rename o n =>
      rcases ho : starts_with o w.root <;> rcases hn : starts_with n w.root <;>
        simp_all [Watch.notify, Event.watchId]
  | NoticeWrite p => simp [Watch.notify] at h
  | NoticeRemove p => simp [Watch.notify] at h
  | Chmod p => simp [Watch.notify] at h
  | Rescan => simp [Watch.notify] at h
  | Error d p => simp [Watch.notify] at h

/-- `Watch::notify` emits something iff one of the event's semantic paths lies
under the watch's root. -/
theorem notify_ne_nil_iff (w : Watch) (ev : DebouncedEvent) :
    w.notify ev ≠ [] ↔ ∃ p ∈ ev.semanticPaths, starts_with p w.root = true := by
  cases ev with
  | Create p =>
      by_cases hp : starts_with p w.root = true <;>
        simp_all [Watch.notify, DebouncedEvent.semanticPaths]
  | Write p =>
      by_cases hp : starts_with p w.root = true <;>
        simp_all [Watch.notify, DebouncedEvent.semanticPaths]
  | Remove p =>
      by_cases hp : starts_with p w.root = true <;>
        simp_all [Watch.notify, DebouncedEvent.semanticPaths]
  | Rename o n =>
      rcases ho : starts_with o w.root <;> rcases hn : starts_with n w.root <;>
        simp_all [Watch.notify, DebouncedEvent.semanticPaths]
  | NoticeWrite p => simp [Watch.notify, DebouncedEvent.semanticPaths]
  | NoticeRemove p => simp [Watch.notify, DebouncedEvent.semanticPaths]
  | Chmod p => simp [Watch.notify, DebouncedEvent.semanticPaths]
  | Rescan => simp [Watch.notify, DebouncedEvent.semanticPaths]
  | Error d p => simp [Watch.notify, DebouncedEvent.semanticPaths]

/-- Membership in the supervisor's dispatch output comes from some registered
watch's own classification. -/
theorem mem_supervisor_notify_iff (watches : List (WatchId × Watch))
    (ev : DebouncedEvent) (e : Event) :
    e ∈ Supervisor.notify watches ev ↔ ∃ pr ∈ watches, e ∈ pr.2.notify ev := by
  induction watches with
  | nil => simp [Supervisor.notify]
  | cons pr rest ih => simp [Supervisor.notify, ih]

/-- With distinct registry keys, a key determines its entry. -/
theorem entry_eq_of_nodup_keys (watches : List (WatchId × Watch))
    (hnd : (watches.map Prod.fst).Nodup) (id : WatchId) (a b : Watch)
    (ha : (id, a) ∈ watches) (hb : (id, b) ∈ watches) : a = b := by
  induction watches with
  | nil => simp at ha
  | cons pr rest ih =>
      obtain ⟨k, w⟩ := pr
      simp only [List.map_cons, List.nodup_cons] at hnd
      rw [List.mem_cons] at ha hb
      rcases ha with ha | ha <;> rcases hb with hb | hb
      · rw [Prod.mk.injEq] at ha hb
        rw [ha.2, hb.2]
      · rw [Prod.mk.injEq] at ha
        exact absurd (List.mem_map_of_mem Prod.fst hb) (by rw [← ha.1] at hnd; exact hnd.1)
      · rw [Prod.mk.injEq] at hb
        exact absurd (List.mem_map_of_mem Prod.fst ha) (by rw [← hb.1] at hnd; exact hnd.1)
      · exact ih hnd.2 ha hb

/-! ### Claims -/

/-- C7: the source's path filter (`Path::starts_with`, i.e. `starts_with`)
returns true iff the candidate equals the root or is a descendant of the root
in the component sequence — the spec's `isUnder`. -/
theorem starts_with_iff_isUnder (root candidate : Path) :
    starts_with candidate root = true ↔ isUnder root candidate := by
  rw [starts_with_eq_true_iff]
  constructor
  · rintro ⟨t, rfl⟩
    cases t with
    | nil => exact Or.inl (by simp)
    | cons x xs => exact Or.inr ⟨x :: xs, by simp⟩
  · rintro (rfl | ⟨rest, -, rfl⟩)
    · exact ⟨[], by simp⟩
    · exact ⟨rest, rfl⟩

/-- C1: for a raw `Rename(old, new)`, classification splits four ways on
whether the old and new paths lie under the watch root: under/under emits
exactly one `Renamed`, under/out exactly one `Deleted(old)`, out/under exactly
one `Created(new)`, out/out nothing — and nothing else in each case. -/
theorem notify_rename_cases (w : Watch) (o n : Path) :
    (starts_with o w.root = true → starts_with n w.root = true →
      w.notify (.Rename o n) = [.Renamed w.id n o]) ∧
    (starts_with o w.root = true → starts_with n w.root = false →
      w.notify (.Rename o n) = [.Deleted w.id o]) ∧
    (starts_with o w.root = false → starts_with n w.root = true →
      w.notify (.Rename o n) = [.Created w.id n]) ∧
    (starts_with o w.root = false → starts_with n w.root = false →
      w.notify (.Rename o n) = []) := by
  refine ⟨fun ho hn => ?_, fun ho hn => ?_, fun ho hn => ?_, fun ho hn => ?_⟩ <;>
    simp [Watch.notify, ho, hn]

/-- C1 witness: the spec's boundary-crossing example — a watch rooted at `/a`
sees `Rename("/a/x", "/b/x")` as exactly one `Deleted("/a/x")`. -/
theorem notify_rename_cases_witness :
    Watch.notify ⟨1, ["a"]⟩ (.Rename ["a", "x"] ["b", "x"]) = [.Deleted 1 ["a", "x"]] :=
  (notify_rename_cases ⟨1, ["a"]⟩ ["a", "x"] ["b", "x"]).2.1 (by decide) (by decide)

/-- C8: informational raw variants (notice-only write/remove, attribute
change, rescan, error notice) produce no semantic event for any watch. -/
theorem notify_informational_none (w : Watch) (p : Path) (d : String) (op : Option Path) :
    w.notify (.NoticeWrite p) = [] ∧ w.notify (.NoticeRemove p) = [] ∧
    w.notify (.Chmod p) = [] ∧ w.notify .Rescan = [] ∧ w.notify (.Error d op) = [] :=
  ⟨rfl, rfl, rfl, rfl, rfl⟩

/-- C10: classification emits at most one semantic event per watch per raw
event; in particular a boundary-crossing rename yields one of Deleted or
Created, never both. -/
theorem notify_at_most_one (w : Watch) (ev : DebouncedEvent) :
    (w.notify ev).length ≤ 1 := by
  cases ev with
  | Create p => by_cases hp : starts_with p w.root = true <;> simp [Watch.notify, hp]
  | Write p => by_cases hp : starts_with p w.root = true <;> simp [Watch.notify, hp]
  | Remove p => by_cases hp : starts_with p w.root = true <;> simp [Watch.notify, hp]
  | Rename o n =>
      rcases ho : starts_with o w.root <;> rcases hn : starts_with n w.root <;>
        simp [Watch.notify, ho, hn]
  | NoticeWrite p => simp [Watch.notify]
  | NoticeRemove p => simp [Watch.notify]
  | Chmod p => simp [Watch.notify]
  | Rescan => simp [Watch.notify]
  | Error d p => simp [Watch.notify]

/-- An environment in which canonicalization, subscribe and unsubscribe all
succeed (canonicalization as the identity on an already-canonical path). -/
def okEnv : Env :=
  { canonicalize := fun p => Except.ok p,
    subscribe := fun _ => Except.ok (),
    unsubscribe := fun _ => Except.ok () }

/-- An environment in which canonicalization fails. -/
def canonFailEnv : Env :=
  { canonicalize := fun _ => Except.error "No such file or directory (os error 2)",
    subscribe := fun _ => Except.ok (),
    unsubscribe := fun _ => Except.ok () }

/-- An environment in which canonicalization succeeds but the OS watch handle
rejects subscribe and unsubscribe. -/
def subFailEnv : Env :=
  { canonicalize := fun p => Except.ok p,
    subscribe := fun _ => Except.error "watch failed",
    unsubscribe := fun _ => Except.error "unwatch failed" }

/-- C2 counterexample to the claim as stated: a `NoticeWrite` raw event
carries a path under the watch root, yet dispatch emits nothing. -/
theorem supervisor_notify_counterexample :
    (∃ p ∈ DebouncedEvent.carriedPaths (.NoticeWrite ["a", "x"]),
        starts_with p ["a"] = true) ∧
    Supervisor.notify [(1, ⟨1, ["a"]⟩)] (.NoticeWrite ["a", "x"]) = [] :=
  ⟨⟨["a", "x"], by simp [DebouncedEvent.carriedPaths], by decide⟩, rfl⟩

/-- C2 (amended): in a well-formed registry, a semantic event tagged with
watch `w`'s id is emitted for a raw event iff the event is a semantic
(non-informational) variant one of whose paths lies under `w`'s root. -/
theorem supervisor_notify_emits_iff (watches : List (WatchId × Watch))
    (ev : DebouncedEvent) (id : WatchId) (w : Watch)
    (hwf : ∀ pr ∈ watches, (pr.2).id = pr.1)
    (hnd : (watches.map Prod.fst).Nodup)
    (hmem : (id, w) ∈ watches) :
    (∃ e ∈ Supervisor.notify watches ev, e.watchId = w.id) ↔
      ∃ p ∈ ev.semanticPaths, starts_with p w.root = true := by
  constructor
  · rintro ⟨e, he, htag⟩
    rw [mem_supervisor_notify_iff] at he
    obtain ⟨⟨k, w'⟩, hpr, hepr⟩ := he
    have h1 : e.watchId = w'.id := watchId_of_mem_notify w' ev e hepr
    have hkey : w'.id = k := hwf (k, w') hpr
    have hwid : w.id = id := hwf (id, w) hmem
    have hk : k = id := by rw [← hkey, ← h1, htag, hwid]
    subst hk
    have hw : w' = w := entry_eq_of_nodup_keys watches hnd k w' w hpr hmem
    subst hw
    exact (notify_ne_nil_iff w' ev).mp (List.ne_nil_of_mem hepr)
  · intro hp
    have hne : w.notify ev ≠ [] := (notify_ne_nil_iff w ev).mpr hp
    obtain ⟨e, he⟩ := List.exists_mem_of_ne_nil _ hne
    refine ⟨e, ?_, watchId_of_mem_notify w ev e he⟩
    rw [mem_supervisor_notify_iff]
    exact ⟨(id, w), hmem, he⟩

/-- C2 witness: with overlapping watches rooted at `/a` and `/a/sub`, a
`Create("/a/sub/f")` yields an event tagged with the inner watch's id, and a
`Write("/outside")` yields no event tagged with watch 1. -/
theorem supervisor_notify_emits_iff_witness :
    (∃ e ∈ Supervisor.notify [(1, ⟨1, ["a"]⟩), (2, ⟨2, ["a", "sub"]⟩)]
        (.Create ["a", "sub", "f"]), e.watchId = 2) ∧
    ¬ (∃ e ∈ Supervisor.notify [(1, ⟨1, ["a"]⟩), (2, ⟨2, ["a", "sub"]⟩)]
        (.Write ["outside"]), e.watchId = 1) :=
  ⟨(supervisor_notify_emits_iff [(1, ⟨1, ["a"]⟩), (2, ⟨2, ["a", "sub"]⟩)]
      (.Create ["a", "sub", "f"]) 2 ⟨2, ["a", "sub"]⟩ (by decide) (by decide)
      (by decide)).mpr ⟨["a", "sub", "f"], by simp [DebouncedEvent.semanticPaths], by decide⟩,
   fun h => absurd ((supervisor_notify_emits_iff [(1, ⟨1, ["a"]⟩), (2, ⟨2, ["a", "sub"]⟩)]
      (.Write ["outside"]) 1 ⟨1, ["a"]⟩ (by decide) (by decide) (by decide)).mp h)
      (by decide)⟩

/-- C3: a `Watch(id, root)` command with `id` already registered emits the
duplicate-registration error and leaves the whole state unchanged, while with
a fresh id, successful canonicalization and successful subscribe it emits
`Ok(id)` and registers the watch. -/
theorem handle_watch_duplicate (env : Env) (s : Supervisor) (id : WatchId) (root : Path) :
    (containsKey s.watches id = true →
      Supervisor.handle_request env s (.Watch id root) =
        some (s, .Error id ("Already registered a watch with id " ++ toString id))) ∧
    (containsKey s.watches id = false → ∀ croot,
      env.canonicalize root = .ok croot → env.subscribe croot = .ok () →
      Supervisor.handle_request env s (.Watch id root) =
        some ({ watcher := watcherWatch s.watcher croot,
                watches := s.watches ++ [(id, ⟨id, croot⟩)] }, .Ok id)) := by
  constructor
  · intro h
    simp [Supervisor.handle_request, h]
  · intro h croot hc hs
    simp [Supervisor.handle_request, h, hc, hs]

/-- C3 witness: watch id 5 twice; the first call succeeds, the second call on
the resulting state errors and changes nothing. -/
theorem handle_watch_duplicate_witness :
    (Supervisor.handle_request okEnv Supervisor.new (.Watch 5 ["a"]) =
      some (⟨[["a"]], [(5, ⟨5, ["a"]⟩)]⟩, .Ok 5)) ∧
    (Supervisor.handle_request okEnv ⟨[["a"]], [(5, ⟨5, ["a"]⟩)]⟩ (.Watch 5 ["a"]) =
      some (⟨[["a"]], [(5, ⟨5, ["a"]⟩)]⟩,
        .Error 5 ("Already registered a watch with id " ++ toString 5))) :=
  ⟨(handle_watch_duplicate okEnv Supervisor.new 5 ["a"]).2 (by decide) ["a"] rfl rfl,
   (handle_watch_duplicate okEnv ⟨[["a"]], [(5, ⟨5, ["a"]⟩)]⟩ 5 ["a"]).1 (by decide)⟩

/-- A key absent from the registry cannot be removed. -/
theorem removeEntry_eq_none_of_not_containsKey (watches : List (WatchId × Watch))
    (id : WatchId) (h : containsKey watches id = false) :
    removeEntry watches id = none := by
  induction watches with
  | nil => rfl
  | cons pr rest ih =>
      obtain ⟨k, w⟩ := pr
      simp only [containsKey, List.any_cons, Bool.or_eq_false_iff] at h
      simp [removeEntry, h.1, ih h.2]

/-- C4: an `Unwatch(id)` command with `id` not registered emits the
no-watch-exists error and leaves the registry and the subscription set
unchanged. -/
theorem handle_unwatch_missing (env : Env) (s : Supervisor) (id : WatchId)
    (h : containsKey s.watches id = false) :
    Supervisor.handle_request env s (.Unwatch id) =
      some (s, .Error id ("No watch exists with id " ++ toString id)) := by
  simp [Supervisor.handle_request, removeEntry_eq_none_of_not_containsKey _ _ h]

/-- C4 witness: unwatching id 9 in a state that only registers id 5. -/
theorem handle_unwatch_missing_witness :
    Supervisor.handle_request okEnv ⟨[["a"]], [(5, ⟨5, ["a"]⟩)]⟩ (.Unwatch 9) =
      some (⟨[["a"]], [(5, ⟨5, ["a"]⟩)]⟩,
        .Error 9 ("No watch exists with id " ++ toString 9)) :=
  handle_unwatch_missing okEnv ⟨[["a"]], [(5, ⟨5, ["a"]⟩)]⟩ 9 (by decide)

/-- C5: a `Watch(id, root)` command with a fresh id whose canonicalization
fails, or whose OS subscribe fails, emits an error carrying the failure's
description and performs no mutation at all. -/
theorem handle_watch_failure_no_mutation (env : Env) (s : Supervisor) (id : WatchId)
    (root : Path) (hfresh : containsKey s.watches id = false) :
    (∀ e, env.canonicalize root = .error e →
      Supervisor.handle_request env s (.Watch id root) = some (s, .Error id e)) ∧
    (∀ croot e, env.canonicalize root = .ok croot → env.subscribe croot = .error e →
      Supervisor.handle_request env s (.Watch id root) = some (s, .Error id e)) := by
  constructor
  · intro e he
    simp [Supervisor.handle_request, hfresh, he]
  · intro croot e hc hs
    simp [Supervisor.handle_request, hfresh, hc, hs]

/-- C5 witness: a failing canonicalization and a failing subscribe each
produce an error and leave the fresh state untouched. -/
theorem handle_watch_failure_no_mutation_witness :
    (Supervisor.handle_request canonFailEnv Supervisor.new (.Watch 1 ["a"]) =
      some (Supervisor.new, .Error 1 "No such file or directory (os error 2)")) ∧
    (Supervisor.handle_request subFailEnv Supervisor.new (.Watch 1 ["a"]) =
      some (Supervisor.new, .Error 1 "watch failed")) :=
  ⟨(handle_watch_failure_no_mutation canonFailEnv Supervisor.new 1 ["a"] (by decide)).1
      "No such file or directory (os error 2)" rfl,
   (handle_watch_failure_no_mutation subFailEnv Supervisor.new 1 ["a"] (by decide)).2
      ["a"] "watch failed" rfl rfl⟩

/-- C6: from the initial state, a successful `Watch(id, root)` followed
immediately by `Unwatch(id)` leaves the registry empty and the OS
subscription set unchanged from before the pair. -/
theorem watch_unwatch_roundtrip (env : Env) (id : WatchId) (root croot : Path)
    (hc : env.canonicalize root = .ok croot) (hs : env.subscribe croot = .ok ())
    (hu : env.unsubscribe croot = .ok ()) :
    ∃ s1 : Supervisor,
      Supervisor.handle_request env Supervisor.new (.Watch id root) = some (s1, .Ok id) ∧
      ∃ s2 : Supervisor,
        Supervisor.handle_request env s1 (.Unwatch id) = some (s2, .Ok id) ∧
        s2.watches = [] ∧ s2.watcher = Supervisor.new.watcher := by
  refine ⟨⟨[croot], [(id, ⟨id, croot⟩)]⟩, ?_, ⟨[], []⟩, ?_, rfl, rfl⟩
  · simp [Supervisor.handle_request, Supervisor.new, hc, hs, containsKey, watcherWatch]
  · simp [Supervisor.handle_request, removeEntry, hu, watcherUnwatch]

/-- C6 witness: the round trip at id 1 and root `/a` in the all-success
environment. -/
theorem watch_unwatch_roundtrip_witness :
    ∃ s1 : Supervisor,
      Supervisor.handle_request okEnv Supervisor.new (.Watch 1 ["a"]) = some (s1, .Ok 1) ∧
      ∃ s2 : Supervisor,
        Supervisor.handle_request okEnv s1 (.Unwatch 1) = some (s2, .Ok 1) ∧
        s2.watches = [] ∧ s2.watcher = Supervisor.new.watcher :=
  watch_unwatch_roundtrip okEnv 1 ["a"] ["a"] rfl rfl rfl

/-- C9: for an `Unwatch(id)` with `id` registered, an OS-handle unsubscribe
failure is fatal (the `.unwrap()` panic, modelled as `none`) rather than a
reported error response; a successful unsubscribe emits `Ok(id)`. -/
theorem handle_unwatch_unsubscribe (env : Env) (s : Supervisor) (id : WatchId)
    (w : Watch) (rest : List (WatchId × Watch))
    (hrem : removeEntry s.watches id = some (w, rest)) :
    (∀ e, env.unsubscribe w.root = .error e →
      Supervisor.handle_request env s (.Unwatch id) = none) ∧
    (env.unsubscribe w.root = .ok () →
      Supervisor.handle_request env s (.Unwatch id) =
        some ({ watcher := watcherUnwatch s.watcher w.root, watches := rest }, .Ok id)) := by
  constructor
  · intro e he
    simp [Supervisor.handle_request, hrem, he]
  · intro h
    simp [Supervisor.handle_request, hrem, h]

/-- C9 witness: unwatching a registered id panics when the handle rejects the
unsubscribe, and succeeds with `Ok` when the handle accepts it. -/
theorem handle_unwatch_unsubscribe_witness :
    (Supervisor.handle_request subFailEnv ⟨[["r"]], [(3, ⟨3, ["r"]⟩)]⟩ (.Unwatch 3) = none) ∧
    (Supervisor.handle_request okEnv ⟨[["r"]], [(3, ⟨3, ["r"]⟩)]⟩ (.Unwatch 3) =
      some (⟨[], []⟩, .Ok 3)) :=
  ⟨(handle_unwatch_unsubscribe subFailEnv ⟨[["r"]], [(3, ⟨3, ["r"]⟩)]⟩ 3 ⟨3, ["r"]⟩ []
      (by decide)).1 "unwatch failed" rfl,
   (handle_unwatch_unsubscribe okEnv ⟨[["r"]], [(3, ⟨3, ["r"]⟩)]⟩ 3 ⟨3, ["r"]⟩ []
      (by decide)).2 rfl⟩

end Subprocess
